import Mathlib

/-!
Verification of the force-directed graph layout engine and its interaction
model (GraphView component): the per-frame simulation `tick` (pairwise
repulsion, edge attraction, center gravity, damping + clamping), the
selection/neighbor/dimming logic, and the animation-frame scheduler.

Numbers are modelled as real numbers.  JavaScript's `x || 1` applied to the
non-negative result of `Math.sqrt` is modelled by `floorDist`, which returns
`1` when its argument is `0` and the argument otherwise.
-/

/-- Node record (source `GraphNode`): `id`, `type`, `risk`, `label` plus the
simulator-owned position `(x, y)` and velocity `(vx, vy)`.  The simulation
initialises `vx`/`vy` to `0`, so we carry them as plain fields. -/
structure GraphNode where
  id : String
  type : String
  risk : ℝ
  label : String
  x : ℝ
  y : ℝ
  vx : ℝ
  vy : ℝ

/-- Edge record (source `GraphEdge`): ordered `source`/`target` node ids,
`weight` and `type`. -/
structure GraphEdge where
  source : String
  target : String
  weight : ℝ
  type : String

/-- Canvas width, `const W = 700`. -/
noncomputable def W : ℝ := 700

/-- Canvas height, `const H = 440`. -/
noncomputable def H : ℝ := 440

/-- JavaScript `Math.sqrt(...) || 1`: a zero distance is replaced by `1`. -/
noncomputable def floorDist (d : ℝ) : ℝ := if d = 0 then 1 else d

/-- Index pairs `(i, j)` with `i < j < n`, in the order of the nested
repulsion loops `for i ...; for j = i+1 ...`. -/
def pairIndices (n : Nat) : List (Nat × Nat) :=
  (List.range n).flatMap (fun i => ((List.range n).drop (i + 1)).map (fun j => (i, j)))

/-- One iteration of the repulsion inner loop body for the pair `ij`:
inverse-square force `1200 / dist²` along the displacement from node `j`
to node `i`, added to `i`'s velocity and subtracted from `j`'s. -/
noncomputable def repelStep (l : List GraphNode) (ij : Nat × Nat) : List GraphNode :=
  match l[ij.1]?, l[ij.2]? with
  | some a, some b =>
    let dx := a.x - b.x
    let dy := a.y - b.y
    let dist := floorDist (Real.sqrt (dx * dx + dy * dy))
    let force := 1200 / (dist * dist)
    let fx := dx / dist * force
    let fy := dy / dist * force
    (l.set ij.1 { a with vx := a.vx + fx, vy := a.vy + fy }).set ij.2
      { b with vx := b.vx - fx, vy := b.vy - fy }
  | _, _ => l

/-- Phase 1 of the tick: the full pairwise repulsion double loop. -/
noncomputable def repulsion (ns : List GraphNode) : List GraphNode :=
  (pairIndices ns.length).foldl repelStep ns

/-- Replace the first element satisfying `p` by its image under `f`
(models in-place mutation of the element found by `Array.prototype.find`). -/
def updateFirst (p : GraphNode → Bool) (f : GraphNode → GraphNode) :
    List GraphNode → List GraphNode
  | [] => []
  | x :: xs => if p x then f x :: xs else x :: updateFirst p f xs

/-- One iteration of the attraction loop for edge `e`: both endpoints are
looked up by id; if either is missing the edge is skipped (`continue`);
otherwise the linear spring force `(dist − 120) · 0.04` is applied to the
source's velocity and subtracted from the target's. -/
noncomputable def attractStep (l : List GraphNode) (e : GraphEdge) : List GraphNode :=
  match l.find? (fun n => n.id == e.source), l.find? (fun n => n.id == e.target) with
  | some s, some t =>
    let dx := t.x - s.x
    let dy := t.y - s.y
    let dist := floorDist (Real.sqrt (dx * dx + dy * dy))
    let force := (dist - 120) * 0.04
    let fx := dx / dist * force
    let fy := dy / dist * force
    updateFirst (fun n => n.id == e.target)
      (fun t0 => { t0 with vx := t0.vx - fx, vy := t0.vy - fy })
      (updateFirst (fun n => n.id == e.source)
        (fun s0 => { s0 with vx := s0.vx + fx, vy := s0.vy + fy }) l)
  | _, _ => l

/-- Phase 2 of the tick: attraction along every edge in order. -/
noncomputable def attraction (ns : List GraphNode) (es : List GraphEdge) : List GraphNode :=
  es.foldl attractStep ns

/-- Phase 3 of the tick: constant-coefficient pull toward the canvas center. -/
noncomputable def gravity (ns : List GraphNode) : List GraphNode :=
  ns.map (fun n =>
    { n with vx := n.vx + (W / 2 - n.x) * 0.005, vy := n.vy + (H / 2 - n.y) * 0.005 })

/-- Phases 4–5 of the tick: damp each velocity by `0.85`, integrate, and
clamp the position to the canvas bounds minus the 20-pixel margin. -/
noncomputable def dampClamp (ns : List GraphNode) : List GraphNode :=
  ns.map (fun n =>
    let nvx := n.vx * 0.85
    let nvy := n.vy * 0.85
    { n with vx := nvx, vy := nvy,
             x := max 20 (min (W - 20) (n.x + nvx)),
             y := max 20 (min (H - 20) (n.y + nvy)) })

/-- One simulation tick: repulsion, then edge attraction, then center
gravity, then damping/integration/clamping, exactly in source order. -/
noncomputable def tick (ns : List GraphNode) (es : List GraphEdge) : List GraphNode :=
  dampClamp (gravity (attraction (repulsion ns) es))

example : pairIndices 2 = [(0, 1)] := by decide

example : pairIndices 3 = [(0, 1), (0, 2), (1, 2)] := by decide

/-- The set built by
`new Set(edges.filter(e => e.source === sel.id || e.target === sel.id)
            .flatMap(e => [e.source, e.target]))`
for a selected node `sel`. -/
def selNeighbors (sel : GraphNode) (edges : List GraphEdge) : Finset String :=
  ((edges.filter (fun e => e.source == sel.id || e.target == sel.id)).flatMap
    (fun e => [e.source, e.target])).toFinset

/-- The same set lifted to the optional selection state; with no selection
the set is empty (`new Set<string>()`). -/
def selNeighborsOpt (sel : Option GraphNode) (edges : List GraphEdge) : Finset String :=
  match sel with
  | some s => selNeighbors s edges
  | none => ∅

/-- Whether the click target is the currently selected node:
`selected?.id === n.id`. -/
def isSelectedId (sel : Option GraphNode) (n : GraphNode) : Bool :=
  match sel with
  | some s => s.id == n.id
  | none => false

/-- The click handler `setSelected(isSelected ? null : n)`. -/
def clickNode (sel : Option GraphNode) (n : GraphNode) : Option GraphNode :=
  if isSelectedId sel n then none else some n

/-- Node dimming flag:
`selected && !selNeighbors.has(n.id) && selected.id !== n.id`. -/
def nodeDimmed (sel : Option GraphNode) (edges : List GraphEdge) (n : GraphNode) : Bool :=
  match sel with
  | some s => !(decide (n.id ∈ selNeighbors s edges)) && (s.id != n.id)
  | none => false

/-- Edge dimming flag:
`selected && !selNeighbors.has(e.source) && !selNeighbors.has(e.target)`. -/
def edgeDim (sel : Option GraphNode) (edges : List GraphEdge) (e : GraphEdge) : Bool :=
  match sel with
  | some s =>
    !(decide (e.source ∈ selNeighbors s edges)) && !(decide (e.target ∈ selNeighbors s edges))
  | none => false

/-- Rendered stroke width of an edge: `strokeWidth={e.weight}`. -/
noncomputable def strokeWidth (e : GraphEdge) : ℝ := e.weight

/-- Scheduler session state under single-threaded event-loop semantics:
`pending` records whether an animation-frame request is outstanding
(`animRef.current` holds a live request), and `nodes` is the simulated
node state the `tick` callback mutates. -/
structure SimSession where
  pending : Bool
  nodes : List GraphNode

/-- One would-be frame interval: if a request is pending, the `tick`
callback runs (advancing the nodes and re-requesting the next frame,
`animRef.current = requestAnimationFrame(tick)`); otherwise nothing runs. -/
noncomputable def frameStep (es : List GraphEdge) (s : SimSession) : SimSession :=
  if s.pending then ⟨true, tick s.nodes es⟩ else s

/-- `cancelAnimationFrame(animRef.current)` (teardown cleanup or the 3 s
timeout): the outstanding request is released; node state is untouched. -/
noncomputable def cancelAnim (s : SimSession) : SimSession := ⟨false, s.nodes⟩

/-- Concrete node used to instantiate universally quantified theorems. -/
noncomputable def nW : GraphNode := ⟨"W0", "account", 0.5, "w", 100, 100, 0, 0⟩

/-- The single-node tick in closed form: no repulsion pairs, no edges,
so only gravity, damping, integration and clamping act. -/
lemma tick_singleton (n : GraphNode) :
    tick [n] [] =
      [⟨n.id, n.type, n.risk, n.label,
        max 20 (min (W - 20) (n.x + (n.vx + (W / 2 - n.x) * 0.005) * 0.85)),
        max 20 (min (H - 20) (n.y + (n.vy + (H / 2 - n.y) * 0.005) * 0.85)),
        (n.vx + (W / 2 - n.x) * 0.005) * 0.85,
        (n.vy + (H / 2 - n.y) * 0.005) * 0.85⟩] := rfl

/-- Image of the concrete node `nW` under one tick. -/
noncomputable def mW : GraphNode :=
  ⟨"W0", "account", 0.5, "w", 101.0625, 100.51, 1.0625, 0.51⟩

lemma tick_nW : tick [nW] [] = [mW] := by
  rw [tick_singleton]
  simp only [nW, mW, W, H]
  norm_num

/-- C3: after every simulation tick, every node's position is clamped into
the canvas bounds minus the margin: `x ∈ [20, 680]`, `y ∈ [20, 420]`,
for arbitrary input positions. -/
theorem c3_positions_clamped (ns : List GraphNode) (es : List GraphEdge) :
    ∀ m ∈ tick ns es, 20 ≤ m.x ∧ m.x ≤ 680 ∧ 20 ≤ m.y ∧ m.y ≤ 420 := by
  intro m hm
  unfold tick dampClamp at hm
  rw [List.mem_map] at hm
  obtain ⟨n, -, rfl⟩ := hm
  refine ⟨le_max_left _ _, ?_, le_max_left _ _, ?_⟩
  · exact max_le (by norm_num) (le_trans (min_le_left _ _) (by norm_num [W]))
  · exact max_le (by norm_num) (le_trans (min_le_left _ _) (by norm_num [H]))

/-- Witness for C3 at a concrete one-node state. -/
theorem c3_positions_clamped_witness :
    20 ≤ mW.x ∧ mW.x ≤ 680 ∧ 20 ≤ mW.y ∧ mW.y ≤ 420 :=
  c3_positions_clamped [nW] [] mW (by rw [tick_nW]; exact List.mem_singleton_self mW)

/-- C9: clicking the selected node again returns the selection state to
`Idle` (`none`), after which no node and no edge is marked dimmed. -/
theorem c9_deselect_toggle (n m : GraphNode) (es : List GraphEdge) (e : GraphEdge) :
    clickNode (clickNode none n) n = none ∧
    nodeDimmed (clickNode (clickNode none n) n) es m = false ∧
    edgeDim (clickNode (clickNode none n) n) es e = false := by
  have h1 : clickNode none n = some n := by simp [clickNode, isSelectedId]
  have h2 : clickNode (some n) n = none := by simp [clickNode, isSelectedId]
  rw [h1, h2]
  exact ⟨rfl, rfl, rfl⟩

/-- C10: once the outstanding animation-frame request is canceled, any
number of would-be frame intervals later the node positions still equal
the positions at cancellation, and a frame interval leaves the canceled
session completely unchanged. -/
theorem c10_cancel_stops_mutation (es : List GraphEdge) (s : SimSession) (n : Nat) :
    (Nat.iterate (frameStep es) n (cancelAnim s)).nodes = s.nodes ∧
    frameStep es (cancelAnim s) = cancelAnim s := by
  have hfix : frameStep es (cancelAnim s) = cancelAnim s := by
    simp [frameStep, cancelAnim]
  refine ⟨?_, hfix⟩
  induction n with
  | zero => rfl
  | succ k ih => rw [Function.iterate_succ_apply, hfix]; exact ih

/-- A node used as the selection in the interaction-layer scenarios. -/
noncomputable def nodeN : GraphNode := ⟨"N", "device", 0.9, "n", 0, 0, 0, 0⟩

/-- Multi-edge scenario for the neighbor set: edges N–A, N–A, N–B. -/
noncomputable def esMulti : List GraphEdge :=
  [⟨"N", "A", 2, "shared_device"⟩, ⟨"N", "A", 1, "transaction"⟩, ⟨"N", "B", 1, "transaction"⟩]

/-- C5 counterexample: with edges to {A, A, B}, the computed set is not
`{A, B}` — it also contains the selected node id `N` itself. -/
theorem c5_counterexample :
    selNeighbors nodeN esMulti ≠ ({"A", "B"} : Finset String) ∧
    "N" ∈ selNeighbors nodeN esMulti := by decide

/-- Incidence of an edge on the selected node: its source or target is the
selected node's id. -/
def incidentTo (s : GraphNode) (f : GraphEdge) : Prop :=
  f.source = s.id ∨ f.target = s.id

/-- Semantics of membership in the computed selection set: exactly the
endpoints of edges incident to the selected node. -/
lemma mem_selNeighbors_iff (s : GraphNode) (es : List GraphEdge) (x : String) :
    x ∈ selNeighbors s es ↔
      ∃ f ∈ es, incidentTo s f ∧ (x = f.source ∨ x = f.target) := by
  simp only [selNeighbors, incidentTo, List.mem_toFinset, List.mem_flatMap,
    List.mem_filter, Bool.or_eq_true, beq_iff_eq, List.mem_cons,
    List.not_mem_nil, or_false]
  constructor
  · rintro ⟨e, ⟨hmem, hcond⟩, hx⟩
    exact ⟨e, hmem, hcond, hx⟩
  · rintro ⟨e, hmem, hcond, hx⟩
    exact ⟨e, ⟨hmem, hcond⟩, hx⟩

/-- C5 amended: for a selected node with incident edges to targets
{a, a, b}, the computed set is exactly `{a, b}` together with the selected
node's own id — duplicates collapse, order is irrelevant. -/
theorem c5_selneighbors_multi_edge (nd : GraphNode) (a b : String) (w1 w2 w3 : ℝ)
    (t1 t2 t3 : String) :
    selNeighbors nd [⟨nd.id, a, w1, t1⟩, ⟨nd.id, a, w2, t2⟩, ⟨nd.id, b, w3, t3⟩] =
      {a, b, nd.id} := by
  ext x
  rw [mem_selNeighbors_iff]
  simp only [List.mem_cons, List.not_mem_nil, or_false, Finset.mem_insert,
    Finset.mem_singleton]
  constructor
  · rintro ⟨f, (rfl | rfl | rfl), -, (rfl | rfl)⟩ <;> simp
  · rintro (h | h | h)
    · exact ⟨⟨nd.id, a, w1, t1⟩, Or.inl rfl, Or.inl rfl, Or.inr h⟩
    · exact ⟨⟨nd.id, b, w3, t3⟩, Or.inr (Or.inr rfl), Or.inl rfl, Or.inr h⟩
    · exact ⟨⟨nd.id, a, w1, t1⟩, Or.inl rfl, Or.inl rfl, Or.inl h⟩

/-- Interaction-layer scenario for dimming: selected node N, neighbors A
and B, and an extra edge joining the two neighbors. -/
noncomputable def esTri : List GraphEdge :=
  [⟨"N", "A", 1, "transaction"⟩, ⟨"N", "B", 1, "transaction"⟩, ⟨"A", "B", 1, "transaction"⟩]

/-- The neighbor–neighbor edge A–B of the triangle scenario. -/
noncomputable def eAB : GraphEdge := ⟨"A", "B", 1, "transaction"⟩

/-- C6 counterexample: the A–B edge touches neither endpoint of the
selection `N`, yet it is not marked dimmed, because both of its endpoints
are neighbors of `N`. -/
theorem c6_counterexample :
    edgeDim (some nodeN) esTri eAB = false ∧
    eAB.source ≠ nodeN.id ∧ eAB.target ≠ nodeN.id := by decide

/-- C6 amended: while `n` is selected an edge is dimmed iff neither of its
endpoints is an endpoint of some edge incident to `n` (i.e. neither
endpoint lies in `{n} ∪ neighbors(n)`); in particular an edge of the list
that itself touches `n` is never dimmed. -/
theorem c6_edge_dim_characterization (s : GraphNode) (es : List GraphEdge) (e : GraphEdge) :
    (edgeDim (some s) es e = true ↔
      (¬ ∃ f ∈ es, incidentTo s f ∧ (e.source = f.source ∨ e.source = f.target)) ∧
      (¬ ∃ f ∈ es, incidentTo s f ∧ (e.target = f.source ∨ e.target = f.target))) ∧
    (e ∈ es → incidentTo s e → edgeDim (some s) es e = false) := by
  constructor
  · simp only [edgeDim, Bool.and_eq_true, Bool.not_eq_true', decide_eq_false_iff_not,
      mem_selNeighbors_iff]
  · intro hmem hinc
    have hsrc : e.source ∈ selNeighbors s es :=
      (mem_selNeighbors_iff s es e.source).2 ⟨e, hmem, hinc, Or.inl rfl⟩
    simp [edgeDim, hsrc]

/-- Witness for C6 at the concrete triangle scenario: the incident edge
N–A is not dimmed. -/
theorem c6_edge_dim_characterization_witness :
    edgeDim (some nodeN) esTri ⟨"N", "A", 1, "transaction"⟩ = false :=
  (c6_edge_dim_characterization nodeN esTri ⟨"N", "A", 1, "transaction"⟩).2
    (List.mem_cons_self _ _) (Or.inl rfl)

/-- Endpoints of the weight counterexample: two nodes 200 pixels apart. -/
noncomputable def cwS : GraphNode := ⟨"A", "account", 0.5, "s", 0, 0, 0, 0⟩

/-- Second endpoint of the weight counterexample. -/
noncomputable def cwT : GraphNode := ⟨"B", "account", 0.5, "t", 200, 0, 0, 0⟩

/-- An A–B edge of weight 1. -/
noncomputable def cwE1 : GraphEdge := ⟨"A", "B", 1, "transaction"⟩

/-- An otherwise identical A–B edge of weight 2. -/
noncomputable def cwE2 : GraphEdge := ⟨"A", "B", 2, "transaction"⟩

/-- C7 counterexample: two otherwise identical edges with different
positive weights contribute exactly the same attraction update — the
force computation never reads `weight`. -/
theorem c7_counterexample :
    cwE1.weight = 1 ∧ cwE2.weight = 2 ∧ cwE1.weight ≠ cwE2.weight ∧
    attraction [cwS, cwT] [cwE1] = attraction [cwS, cwT] [cwE2] := by
  refine ⟨rfl, rfl, by norm_num [cwE1, cwE2], rfl⟩

/-- C7 amended: the attraction phase is independent of an edge's `weight`
(and of its `type`); the weight is used visually, as the rendered stroke
width of the edge. -/
theorem c7_weight_only_visual (ns : List GraphNode) (s t : String) (w1 w2 : ℝ)
    (ty1 ty2 : String) :
    attraction ns [⟨s, t, w1, ty1⟩] = attraction ns [⟨s, t, w2, ty2⟩] ∧
    strokeWidth ⟨s, t, w1, ty1⟩ = w1 :=
  ⟨rfl, rfl⟩

/-- Setting an index to the value it already holds leaves a list unchanged. -/
lemma set_self_of_getElem? {α : Type} (l : List α) (i : Nat) (x : α) (h : l[i]? = some x) :
    l.set i x = l := by
  induction l generalizing i with
  | nil => simp at h
  | cons a as ih =>
    cases i with
    | zero =>
      simp only [List.getElem?_cons_zero, Option.some_inj] at h
      rw [show (a :: as).set 0 x = x :: as from rfl, h]
    | succ k =>
      simp only [List.getElem?_cons_succ] at h
      rw [show (a :: as).set (k + 1) x = a :: as.set k x from rfl, ih k h]

/-- The repulsion inner-loop body only rewrites velocities; node ids are
unchanged. -/
lemma ids_repelStep (l : List GraphNode) (ij : Nat × Nat) :
    (repelStep l ij).map GraphNode.id = l.map GraphNode.id := by
  unfold repelStep
  cases h1 : l[ij.1]? with
  | none => rfl
  | some a =>
    cases h2 : l[ij.2]? with
    | none => rfl
    | some b =>
      simp only [List.map_set]
      have g1 : (l.map GraphNode.id)[ij.1]? = some a.id := by
        rw [List.getElem?_map, h1]; rfl
      rw [set_self_of_getElem? _ _ _ g1]
      have g2 : (l.map GraphNode.id)[ij.2]? = some b.id := by
        rw [List.getElem?_map, h2]; rfl
      rw [set_self_of_getElem? _ _ _ g2]

/-- The whole repulsion phase preserves node ids. -/
lemma ids_repulsion (ns : List GraphNode) :
    (repulsion ns).map GraphNode.id = ns.map GraphNode.id := by
  unfold repulsion
  generalize pairIndices ns.length = ps
  induction ps generalizing ns with
  | nil => rfl
  | cons p ps ih =>
    rw [List.foldl_cons]
    rw [ih (repelStep ns p), ids_repelStep]

/-- An edge whose source id resolves to no node is skipped by the
attraction loop. -/
lemma attractStep_skip_source (l : List GraphNode) (e : GraphEdge)
    (h : ∀ m ∈ l, m.id ≠ e.source) : attractStep l e = l := by
  have hf : l.find? (fun n => n.id == e.source) = none :=
    List.find?_eq_none.2 (fun m hm => by simp [beq_iff_eq]; exact h m hm)
  unfold attractStep
  rw [hf]

/-- An edge whose target id resolves to no node is skipped by the
attraction loop. -/
lemma attractStep_skip_target (l : List GraphNode) (e : GraphEdge)
    (h : ∀ m ∈ l, m.id ≠ e.target) : attractStep l e = l := by
  have hf : l.find? (fun n => n.id == e.target) = none :=
    List.find?_eq_none.2 (fun m hm => by simp [beq_iff_eq]; exact h m hm)
  unfold attractStep
  rw [hf]
  cases l.find? (fun n => n.id == e.source) <;> rfl

/-- Every node surviving repulsion has the id of some input node. -/
lemma id_of_mem_repulsion (ns : List GraphNode) (m : GraphNode)
    (hm : m ∈ repulsion ns) : ∃ m' ∈ ns, m'.id = m.id := by
  have : m.id ∈ (repulsion ns).map GraphNode.id := List.mem_map_of_mem _ hm
  rw [ids_repulsion] at this
  obtain ⟨m', hm', he⟩ := List.mem_map.1 this
  exact ⟨m', hm', he⟩

/-- C1 amended: constructing a session never fails — there is no
`InvalidGraphError`; an edge whose source or target id resolves to no
node is silently skipped by the force step, so the tick with the
unresolved edge equals the tick without it. -/
theorem c1_dangling_edge_silently_skipped (ns : List GraphNode) (e : GraphEdge)
    (es : List GraphEdge)
    (h : (∀ m ∈ ns, m.id ≠ e.source) ∨ (∀ m ∈ ns, m.id ≠ e.target)) :
    tick ns (e :: es) = tick ns es := by
  unfold tick attraction
  rw [List.foldl_cons]
  have hskip : attractStep (repulsion ns) e = repulsion ns := by
    rcases h with h | h
    · refine attractStep_skip_source _ _ (fun m hm => ?_)
      obtain ⟨m', hm', he⟩ := id_of_mem_repulsion ns m hm
      rw [← he]; exact h m' hm'
    · refine attractStep_skip_target _ _ (fun m hm => ?_)
      obtain ⟨m', hm', he⟩ := id_of_mem_repulsion ns m hm
      rw [← he]; exact h m' hm'
  rw [hskip]

/-- An edge referencing the unknown node id "ghost" as its source. -/
noncomputable def eGhost : GraphEdge := ⟨"ghost", "W0", 1, "transaction"⟩

/-- C1 counterexample: with the single node `nW` (id "W0") and the edge
`eGhost` whose source "ghost" resolves to no node, the simulation does not
fail — it runs and produces the same one-node state as the tick without
the edge, so the unresolved edge is silently dropped. -/
theorem c1_counterexample :
    tick [nW] [eGhost] = tick [nW] [] ∧ tick [nW] [eGhost] = [mW] := by
  have h : tick [nW] [eGhost] = tick [nW] [] := by
    have hskip : attractStep (repulsion [nW]) eGhost = repulsion [nW] := by
      refine attractStep_skip_source _ _ (fun m hm => ?_)
      have : m = nW := by
        have : repulsion [nW] = [nW] := rfl
        rw [this] at hm
        simpa using hm
      rw [this]
      intro hc
      exact absurd (congrArg id hc) (by simp [nW, eGhost])
    unfold tick attraction
    rw [List.foldl_cons, hskip]
  exact ⟨h, h.trans tick_nW⟩

/-- Witness for C1 at the concrete dangling edge. -/
theorem c1_dangling_edge_silently_skipped_witness :
    tick [nW] [eGhost] = tick [nW] [] :=
  c1_dangling_edge_silently_skipped [nW] eGhost []
    (Or.inl (fun m hm => by
      have : m = nW := by simpa using hm
      rw [this]
      intro hc
      exact absurd (congrArg id hc) (by simp [nW, eGhost])))

/-- Two nodes with equal positions and equal velocities in a two-node,
edgeless graph receive identical updates: the repulsion direction
`dx / dist` degenerates to `0 / 1 = 0`, gravity depends only on the
(equal) positions, so the pair stays coincident after the tick. -/
lemma tick_pair_coincident (a b : GraphNode) (hx : a.x = b.x) (hy : a.y = b.y)
    (hvx : a.vx = b.vx) (hvy : a.vy = b.vy) :
    ((tick [a, b] [])[0]?).map (fun n => (n.x, n.y)) =
      ((tick [a, b] [])[1]?).map (fun n => (n.x, n.y)) := by
  have hdx : a.x - b.x = 0 := by rw [hx, sub_self]
  have hdy : a.y - b.y = 0 := by rw [hy, sub_self]
  unfold tick attraction repulsion
  rw [show pairIndices ([a, b] : List GraphNode).length = [(0, 1)] from rfl]
  rw [List.foldl_nil, List.foldl_cons, List.foldl_nil]
  unfold repelStep
  simp only [List.getElem?_cons_zero, List.getElem?_cons_succ, List.set]
  simp only [hdx, hdy]
  rw [show ((0 : ℝ) * 0 + 0 * 0) = 0 by ring, Real.sqrt_zero]
  rw [show floorDist 0 = 1 from if_pos rfl]
  simp only [zero_div, zero_mul, add_zero, sub_zero]
  unfold gravity dampClamp
  simp only [List.map_cons, List.map_nil, List.getElem?_cons_zero,
    List.getElem?_cons_succ]
  rw [hx, hy, hvx, hvy]
  rfl

/-- C2 amended: for two nodes placed at identical coordinates (with equal
velocities, as at simulation start) in a two-node edgeless graph, after one
tick their positions are still identical — the `|| 1` floor prevents any
division by zero (the floored distance is always positive) but yields a
zero repulsion direction instead of separating the pair. -/
theorem c2_coincident_nodes_stay_coincident (a b : GraphNode) (hx : a.x = b.x)
    (hy : a.y = b.y) (hvx : a.vx = b.vx) (hvy : a.vy = b.vy) :
    (((tick [a, b] [])[0]?).map (fun n => (n.x, n.y)) =
      ((tick [a, b] [])[1]?).map (fun n => (n.x, n.y))) ∧
    ∀ d : ℝ, 0 ≤ d → 0 < floorDist d := by
  refine ⟨tick_pair_coincident a b hx hy hvx hvy, fun d hd => ?_⟩
  unfold floorDist
  by_cases h : d = 0
  · rw [if_pos h]; norm_num
  · rw [if_neg h]; exact lt_of_le_of_ne hd (Ne.symm h)

/-- First node of the coincident pair, at (100, 100). -/
noncomputable def cA : GraphNode := ⟨"A", "account", 0.5, "a", 100, 100, 0, 0⟩

/-- Second node of the coincident pair, also at (100, 100). -/
noncomputable def cB : GraphNode := ⟨"B", "account", 0.6, "b", 100, 100, 0, 0⟩

/-- C2 counterexample: two distinct nodes placed at the identical point
(100, 100) still have identical positions after one simulation tick. -/
theorem c2_counterexample :
    cA.x = cB.x ∧ cA.y = cB.y ∧ cA.id ≠ cB.id ∧
    ((tick [cA, cB] [])[0]?).map (fun n => (n.x, n.y)) =
      ((tick [cA, cB] [])[1]?).map (fun n => (n.x, n.y)) :=
  ⟨rfl, rfl, by simp [cA, cB], tick_pair_coincident cA cB rfl rfl rfl rfl⟩

/-- Witness for C2 at the concrete coincident pair. -/
theorem c2_coincident_nodes_stay_coincident_witness :
    (((tick [cA, cB] [])[0]?).map (fun n => (n.x, n.y)) =
      ((tick [cA, cB] [])[1]?).map (fun n => (n.x, n.y))) ∧
    ∀ d : ℝ, 0 ≤ d → 0 < floorDist d :=
  c2_coincident_nodes_stay_coincident cA cB rfl rfl rfl rfl

/-- Euclidean distance between two nodes' positions, oriented as the
attraction loop computes it (`dx = t.x − s.x`). -/
noncomputable def edgeDist (s t : GraphNode) : ℝ :=
  Real.sqrt ((t.x - s.x) * (t.x - s.x) + (t.y - s.y) * (t.y - s.y))

/-- The `dist` value of the attraction loop: the floored distance. -/
noncomputable def attrDist (s t : GraphNode) : ℝ := floorDist (edgeDist s t)

/-- The attraction loop's `force = (dist - ideal) * 0.04` with `ideal = 120`. -/
noncomputable def attrForce (s t : GraphNode) : ℝ := (attrDist s t - 120) * 0.04

/-- The attraction loop's x force component `fx = (dx / dist) * force`. -/
noncomputable def attrFx (s t : GraphNode) : ℝ := (t.x - s.x) / attrDist s t * attrForce s t

/-- The attraction loop's y force component `fy = (dy / dist) * force`. -/
noncomputable def attrFy (s t : GraphNode) : ℝ := (t.y - s.y) / attrDist s t * attrForce s t

/-- Distance between the first two nodes' positions after integrating
their accumulated velocities (positions each endpoint would move to under
the forces applied so far). -/
noncomputable def intDist : List GraphNode → ℝ
  | a :: b :: _ =>
    Real.sqrt ((b.x + b.vx - (a.x + a.vx)) * (b.x + b.vx - (a.x + a.vx)) +
      (b.y + b.vy - (a.y + a.vy)) * (b.y + b.vy - (a.y + a.vy)))
  | _ => 0

/-- Closed form of the attraction phase on a two-node list with a single
edge from the first node to the second. -/
lemma attraction_pair (s t : GraphNode) (e : GraphEdge) (hs : e.source = s.id)
    (ht : e.target = t.id) (hne : s.id ≠ t.id) :
    attraction [s, t] [e] =
      [{ s with vx := s.vx + attrFx s t, vy := s.vy + attrFy s t },
       { t with vx := t.vx - attrFx s t, vy := t.vy - attrFy s t }] := by
  have h1 : (s.id == e.source) = true := by rw [hs]; exact beq_self_eq_true _
  have h2 : (s.id == e.target) = false := by
    rw [ht]; exact beq_eq_false_iff_ne.2 hne
  have h3 : (t.id == e.target) = true := by rw [ht]; exact beq_self_eq_true _
  have f1 : List.find? (fun n => n.id == e.source) [s, t] = some s := by
    simp only [List.find?, h1]
  have f2 : List.find? (fun n => n.id == e.target) [s, t] = some t := by
    simp only [List.find?, h2, h3]
  unfold attraction
  rw [List.foldl_cons, List.foldl_nil]
  unfold attractStep
  rw [f1, f2]
  dsimp only
  simp only [updateFirst, h1, h2, h3, if_true, Bool.false_eq_true, if_false]
  unfold attrFx attrFy attrForce attrDist edgeDist
  rfl

/-- Pure algebra of the linear spring: displacing both endpoints toward
each other by the force `(S − 120) · 0.04` along the unit direction moves
the separation from `S = √(dx² + dy²)` to `0.92·S + 9.6`. -/
lemma spring_displacement_dist (dx dy : ℝ) (hpos : 0 < Real.sqrt (dx * dx + dy * dy)) :
    Real.sqrt
      ((dx - 2 * (dx / Real.sqrt (dx * dx + dy * dy) *
          ((Real.sqrt (dx * dx + dy * dy) - 120) * 0.04))) *
        (dx - 2 * (dx / Real.sqrt (dx * dx + dy * dy) *
          ((Real.sqrt (dx * dx + dy * dy) - 120) * 0.04))) +
       (dy - 2 * (dy / Real.sqrt (dx * dx + dy * dy) *
          ((Real.sqrt (dx * dx + dy * dy) - 120) * 0.04))) *
        (dy - 2 * (dy / Real.sqrt (dx * dx + dy * dy) *
          ((Real.sqrt (dx * dx + dy * dy) - 120) * 0.04)))) =
      0.92 * Real.sqrt (dx * dx + dy * dy) + 9.6 := by
  have hnn : (0 : ℝ) ≤ dx * dx + dy * dy :=
    add_nonneg (mul_self_nonneg dx) (mul_self_nonneg dy)
  have hSS : Real.sqrt (dx * dx + dy * dy) * Real.sqrt (dx * dx + dy * dy) =
      dx * dx + dy * dy := Real.mul_self_sqrt hnn
  set S := Real.sqrt (dx * dx + dy * dy) with hS
  have hS0 : S ≠ 0 := ne_of_gt hpos
  have hc : (0 : ℝ) ≤ (0.92 * S + 9.6) / S := le_of_lt (div_pos (by linarith) hpos)
  have harg :
      (dx - 2 * (dx / S * ((S - 120) * 0.04))) * (dx - 2 * (dx / S * ((S - 120) * 0.04))) +
        (dy - 2 * (dy / S * ((S - 120) * 0.04))) * (dy - 2 * (dy / S * ((S - 120) * 0.04))) =
      ((0.92 * S + 9.6) / S) ^ 2 * (S * S) := by
    rw [hSS]
    field_simp
    ring
  rw [harg, Real.sqrt_mul (sq_nonneg _), Real.sqrt_sq hc,
    Real.sqrt_mul_self (le_of_lt hpos)]
  field_simp

/-- The distance between the two endpoints after applying (only) the
attraction phase's velocity contributions: in closed form it equals
`0.92 · dist + 9.6`. -/
lemma intDist_attraction_pair (s t : GraphNode) (e : GraphEdge) (hs : e.source = s.id)
    (ht : e.target = t.id) (hne : s.id ≠ t.id) (hsx : s.vx = 0) (hsy : s.vy = 0)
    (htx : t.vx = 0) (hty : t.vy = 0) (hpos : 0 < edgeDist s t) :
    intDist (attraction [s, t] [e]) = 0.92 * edgeDist s t + 9.6 := by
  have hS0 : edgeDist s t ≠ 0 := ne_of_gt hpos
  have hfloor : attrDist s t = edgeDist s t := if_neg hS0
  have hfx : attrFx s t = (t.x - s.x) / edgeDist s t * ((edgeDist s t - 120) * 0.04) := by
    unfold attrFx attrForce
    rw [hfloor]
  have hfy : attrFy s t = (t.y - s.y) / edgeDist s t * ((edgeDist s t - 120) * 0.04) := by
    unfold attrFy attrForce
    rw [hfloor]
  rw [attraction_pair s t e hs ht hne]
  simp only [intDist]
  rw [hsx, hsy, htx, hty]
  rw [show t.x + (0 - attrFx s t) - (s.x + (0 + attrFx s t)) =
      (t.x - s.x) - 2 * attrFx s t from by ring]
  rw [show t.y + (0 - attrFy s t) - (s.y + (0 + attrFy s t)) =
      (t.y - s.y) - 2 * attrFy s t from by ring]
  rw [hfx, hfy]
  have hpos' : 0 < Real.sqrt ((t.x - s.x) * (t.x - s.x) + (t.y - s.y) * (t.y - s.y)) := hpos
  exact spring_displacement_dist (t.x - s.x) (t.y - s.y) hpos'

/-- C4: for an edge between the two nodes of a two-node graph, with all
other forces held equal (zero incoming velocities, attraction phase taken
in isolation), the attraction strictly reduces the endpoint distance when
it exceeds the ideal length 120 and strictly increases it when it is
positive but below 120. -/
theorem c4_attraction_spring (s t : GraphNode) (e : GraphEdge) (hs : e.source = s.id)
    (ht : e.target = t.id) (hne : s.id ≠ t.id) (hsx : s.vx = 0) (hsy : s.vy = 0)
    (htx : t.vx = 0) (hty : t.vy = 0) :
    (120 < edgeDist s t → intDist (attraction [s, t] [e]) < edgeDist s t) ∧
    (0 < edgeDist s t → edgeDist s t < 120 →
      edgeDist s t < intDist (attraction [s, t] [e])) := by
  constructor
  · intro hgt
    have hpos : 0 < edgeDist s t := lt_trans (by norm_num) hgt
    rw [intDist_attraction_pair s t e hs ht hne hsx hsy htx hty hpos]
    linarith
  · intro hpos hlt
    rw [intDist_attraction_pair s t e hs ht hne hsx hsy htx hty hpos]
    linarith

/-- A node 40 pixels from the origin, closer than the ideal length. -/
noncomputable def cnT : GraphNode := ⟨"B", "account", 0.5, "t", 40, 0, 0, 0⟩

lemma edgeDist_cw : edgeDist cwS cwT = 200 := by
  have h : ((200 : ℝ) - 0) * (200 - 0) + (0 - 0) * (0 - 0) = 200 ^ 2 := by norm_num
  show Real.sqrt ((cwT.x - cwS.x) * (cwT.x - cwS.x) + (cwT.y - cwS.y) * (cwT.y - cwS.y)) = 200
  rw [show cwT.x = (200 : ℝ) from rfl, show cwS.x = (0 : ℝ) from rfl,
    show cwT.y = (0 : ℝ) from rfl, show cwS.y = (0 : ℝ) from rfl, h,
    Real.sqrt_sq (by norm_num : (0 : ℝ) ≤ 200)]

lemma edgeDist_cn : edgeDist cwS cnT = 40 := by
  have h : ((40 : ℝ) - 0) * (40 - 0) + (0 - 0) * (0 - 0) = 40 ^ 2 := by norm_num
  show Real.sqrt ((cnT.x - cwS.x) * (cnT.x - cwS.x) + (cnT.y - cwS.y) * (cnT.y - cwS.y)) = 40
  rw [show cnT.x = (40 : ℝ) from rfl, show cwS.x = (0 : ℝ) from rfl,
    show cnT.y = (0 : ℝ) from rfl, show cwS.y = (0 : ℝ) from rfl, h,
    Real.sqrt_sq (by norm_num : (0 : ℝ) ≤ 40)]

/-- Witness for C4: both spring directions exercised at concrete pairs —
endpoints 200 apart draw together, endpoints 40 apart push apart. -/
theorem c4_attraction_spring_witness :
    (120 < edgeDist cwS cwT ∧ intDist (attraction [cwS, cwT] [cwE1]) < edgeDist cwS cwT) ∧
    (0 < edgeDist cwS cnT ∧ edgeDist cwS cnT < 120 ∧
      edgeDist cwS cnT < intDist (attraction [cwS, cnT] [cwE1])) := by
  have hgt : (120 : ℝ) < edgeDist cwS cwT := by rw [edgeDist_cw]; norm_num
  have hpos : (0 : ℝ) < edgeDist cwS cnT := by rw [edgeDist_cn]; norm_num
  have hlt : edgeDist cwS cnT < 120 := by rw [edgeDist_cn]; norm_num
  have hne1 : cwS.id ≠ cwT.id := by simp [cwS, cwT]
  have hne2 : cwS.id ≠ cnT.id := by simp [cwS, cnT]
  refine ⟨⟨hgt, ?_⟩, hpos, hlt, ?_⟩
  · exact (c4_attraction_spring cwS cwT cwE1 rfl rfl hne1 rfl rfl rfl rfl).1 hgt
  · exact (c4_attraction_spring cwS cnT cwE1 rfl rfl hne2 rfl rfl rfl rfl).2 hpos hlt

/-- Erase the node fields the simulation step never writes and never reads
(`type`, `risk`, `label`), keeping id, position and velocity. -/
noncomputable def stripped (n : GraphNode) : GraphNode :=
  { n with type := "", risk := 0, label := "" }

/-- Erase the edge fields the simulation step never reads (`weight`,
`type`), keeping the topology (source and target ids). -/
noncomputable def stripEdge (e : GraphEdge) : GraphEdge :=
  { e with weight := 0, type := "" }

/-- The repulsion loop body commutes with erasing the unread node fields. -/
lemma repelStep_stripped (l : List GraphNode) (ij : Nat × Nat) :
    repelStep (l.map stripped) ij = (repelStep l ij).map stripped := by
  unfold repelStep
  rw [List.getElem?_map, List.getElem?_map]
  cases h1 : l[ij.1]? with
  | none => rfl
  | some a =>
    cases h2 : l[ij.2]? with
    | none => rfl
    | some b =>
      dsimp only [Option.map, stripped]
      simp only [List.map_set]
      rfl

/-- The repulsion phase commutes with erasing the unread node fields. -/
lemma repulsion_stripped (l : List GraphNode) :
    repulsion (l.map stripped) = (repulsion l).map stripped := by
  unfold repulsion
  rw [List.length_map]
  generalize pairIndices l.length = ps
  induction ps generalizing l with
  | nil => rfl
  | cons p ps ih =>
    rw [List.foldl_cons, List.foldl_cons, repelStep_stripped]
    exact ih (repelStep l p)

/-- `updateFirst` with a velocity-increment update commutes with erasing
the unread node fields. -/
lemma updateFirst_add_stripped (tgt : String) (c1 c2 : ℝ) (l : List GraphNode) :
    updateFirst (fun n => n.id == tgt)
      (fun n => { n with vx := n.vx + c1, vy := n.vy + c2 }) (l.map stripped) =
    (updateFirst (fun n => n.id == tgt)
      (fun n => { n with vx := n.vx + c1, vy := n.vy + c2 }) l).map stripped := by
  induction l with
  | nil => rfl
  | cons a as ih =>
    simp only [List.map_cons, updateFirst]
    rw [show (stripped a).id = a.id from rfl]
    cases h : (a.id == tgt) with
    | true => simp only [if_true]; rfl
    | false => simp only [Bool.false_eq_true, if_false, ih, List.map_cons]

/-- `updateFirst` with a velocity-decrement update commutes with erasing
the unread node fields. -/
lemma updateFirst_sub_stripped (tgt : String) (c1 c2 : ℝ) (l : List GraphNode) :
    updateFirst (fun n => n.id == tgt)
      (fun n => { n with vx := n.vx - c1, vy := n.vy - c2 }) (l.map stripped) =
    (updateFirst (fun n => n.id == tgt)
      (fun n => { n with vx := n.vx - c1, vy := n.vy - c2 }) l).map stripped := by
  induction l with
  | nil => rfl
  | cons a as ih =>
    simp only [List.map_cons, updateFirst]
    rw [show (stripped a).id = a.id from rfl]
    cases h : (a.id == tgt) with
    | true => simp only [if_true]; rfl
    | false => simp only [Bool.false_eq_true, if_false, ih, List.map_cons]

/-- The attraction loop body commutes with erasing the unread node fields. -/
lemma attractStep_stripped (l : List GraphNode) (e : GraphEdge) :
    attractStep (l.map stripped) e = (attractStep l e).map stripped := by
  unfold attractStep
  rw [List.find?_map, List.find?_map]
  rw [show ((fun n => n.id == e.source) ∘ stripped) = (fun n => n.id == e.source) from rfl]
  rw [show ((fun n => n.id == e.target) ∘ stripped) = (fun n => n.id == e.target) from rfl]
  cases h1 : l.find? (fun n => n.id == e.source) with
  | none => rfl
  | some s =>
    cases h2 : l.find? (fun n => n.id == e.target) with
    | none => rfl
    | some t =>
      dsimp only [Option.map, stripped]
      rw [updateFirst_add_stripped, updateFirst_sub_stripped]

/-- The attraction loop never reads an edge's weight or type. -/
lemma attractStep_stripEdge (l : List GraphNode) (e : GraphEdge) :
    attractStep l (stripEdge e) = attractStep l e := rfl

/-- The attraction phase commutes with erasing the unread node fields and
depends on the edge list only through source/target ids. -/
lemma attraction_stripped (l : List GraphNode) (es : List GraphEdge) :
    attraction (l.map stripped) (es.map stripEdge) = (attraction l es).map stripped := by
  induction es generalizing l with
  | nil => rfl
  | cons e es ih =>
    show attraction (attractStep (l.map stripped) (stripEdge e)) (es.map stripEdge) =
      (attraction (attractStep l e) es).map stripped
    rw [attractStep_stripEdge, attractStep_stripped]
    exact ih (attractStep l e)

/-- Center gravity commutes with erasing the unread node fields. -/
lemma gravity_stripped (l : List GraphNode) :
    gravity (l.map stripped) = (gravity l).map stripped := by
  unfold gravity
  rw [List.map_map, List.map_map]
  rfl

/-- Damping and clamping commute with erasing the unread node fields. -/
lemma dampClamp_stripped (l : List GraphNode) :
    dampClamp (l.map stripped) = (dampClamp l).map stripped := by
  unfold dampClamp
  rw [List.map_map, List.map_map]
  rfl

/-- The whole tick commutes with erasing the fields it never reads. -/
lemma tick_stripped (ns : List GraphNode) (es : List GraphEdge) :
    tick (ns.map stripped) (es.map stripEdge) = (tick ns es).map stripped := by
  unfold tick
  rw [repulsion_stripped, attraction_stripped, gravity_stripped, dampClamp_stripped]

/-- C8: the tick is a pure, deterministic function of the node ids,
positions and velocities plus the edge topology: two states agreeing on
those (regardless of node risk/label/type or edge weight/type) produce
ticks agreeing on ids, positions and velocities — there is no hidden
randomness or other input. -/
theorem c8_tick_pure_function (ns1 ns2 : List GraphNode) (es1 es2 : List GraphEdge)
    (hn : ns1.map stripped = ns2.map stripped)
    (he : es1.map stripEdge = es2.map stripEdge) :
    (tick ns1 es1).map stripped = (tick ns2 es2).map stripped := by
  rw [← tick_stripped, ← tick_stripped, hn, he]

/-- Node for the purity witness, carrying one risk/label decoration. -/
noncomputable def pA1 : GraphNode := ⟨"A", "account", 0.3, "x", 1, 2, 3, 4⟩

/-- The same node with different decorations but identical core state. -/
noncomputable def pA2 : GraphNode := ⟨"A", "device", 0.9, "y", 1, 2, 3, 4⟩

/-- Self-loop edge with weight 1 for the purity witness. -/
noncomputable def pE1 : GraphEdge := ⟨"A", "A", 1, "t1"⟩

/-- The same topology with a different weight and type. -/
noncomputable def pE2 : GraphEdge := ⟨"A", "A", 2, "t2"⟩

/-- Witness for C8 at concrete states differing only in unread fields. -/
theorem c8_tick_pure_function_witness :
    (tick [pA1] [pE1]).map stripped = (tick [pA2] [pE2]).map stripped :=
  c8_tick_pure_function [pA1] [pA2] [pE1] [pE2] rfl rfl
